import Mathlib

/-!
Verification of the Elehant BLE meter core (`custom_components/elehantmi/scanner.py`
with constants from `const.py`): the packet decoder `parse_meter_data`, the
MAC-identity extractor `extract_info_from_mac`, and the history tracker
`ElehantHistoryScanner`.

Modelling conventions:
* Python `bytes` are `List Nat` (each element of a real byte string is < 256;
  bounds are stated as hypotheses where a claim needs them).
* Python `float` results (`temperature`, timestamps) are modelled as `ℚ`;
  the only arithmetic performed on them is division by 100 and comparisons.
* Python indexing `data[i]` outside any `try` block is modelled in `Except`,
  an out-of-range index being a propagating `IndexError`; indexing inside a
  `try ... except` that catches `IndexError` is modelled with `Option`.
* Python dicts are association lists in insertion order (`List (key × value)`).
-/

set_option autoImplicit false

namespace Elehant

/-- `int.from_bytes(l, byteorder="little")`: little-endian value of a byte list. -/
def leBytes : List Nat → Nat
  | [] => 0
  | b :: rest => b + 256 * leBytes rest

/-- Python slice `data[a:b]` for nonnegative `a ≤ b` (clamping, never raises). -/
def pySlice (data : List Nat) (a b : Nat) : List Nat := (data.take b).drop a

/-- Python indexing `data[i]` outside any `try`: out of range raises `IndexError`. -/
def getByte (data : List Nat) (i : Nat) : Except Unit Nat :=
  match data.get? i with
  | some b => .ok b
  | none => .error ()

/-- `ELEHANT_MARKER` from `const.py`. -/
def ELEHANT_MARKER : Nat := 0x80

/-- `SEPARATOR` from `const.py`. -/
def SEPARATOR : Nat := 0x7F

/-- Step 1 of `parse_meter_data` (lines 82-86): the first payload registered
under manufacturer id `0xFFFF` (`mfr_id == 0xFFFF or mfr_id == 65535`). -/
def findPayload (md : List (Nat × List Nat)) : Option (List Nat) :=
  (md.find? (fun p => p.1 == 0xFFFF)).map Prod.snd

/-- The 4-byte tag test of line 98, `data[0] == 0x14 and data[1] == 0xFF and
data[2] == 0xFF and data[3] == 0xFF`; it is only evaluated when
`len(data) == 21`, so every read is in bounds. -/
def tagOK (data : List Nat) : Bool :=
  data.getD 0 0 == 0x14 && data.getD 1 0 == 0xFF &&
    data.getD 2 0 == 0xFF && data.getD 3 0 == 0xFF

/-- The offset selection of `parse_meter_data` lines 96-106: offset 4 for the
21-byte form with a valid tag, offset 0 for the 17-byte form, otherwise the
function returns `None`. -/
def logicalOffset (data : List Nat) : Option Nat :=
  if data.length = 21 ∧ tagOK data = true then some 4
  else if data.length = 17 then some 0
  else none

/-- The dictionary returned by a successful `parse_meter_data` (lines 135-141).
`temperature` is `temp_raw / 100.0` as a rational; `raw_data` keeps the raw
byte list (the source stores its hex string, an injective image). -/
structure MeterReading where
  serial : Nat
  value : Nat
  temperature : ℚ
  sequence : Nat
  raw_data : List Nat
  deriving Repr, DecidableEq

/-- `parse_meter_data(manufacturer_data)` from `scanner.py` lines 76-144.
The result is in `Except`: `.error` would be an uncaught `IndexError` from the
marker/separator reads of lines 109/114, which sit outside the `try` block;
`.ok none` is Python `None`, `.ok (some r)` a successful parse.  The reads of
lines 118-141 sit inside `try ... except Exception`, so an out-of-range
`data[offset + 1]` there yields `.ok none`. -/
def parse_meter_data (md : List (Nat × List Nat)) : Except Unit (Option MeterReading) :=
  if md = [] then .ok none else
  match findPayload md with
  | none => .ok none
  | some data =>
    if data = [] then .ok none else
    if ¬ (data.length = 17 ∨ data.length = 21) then .ok none else
    match logicalOffset data with
    | none => .ok none
    | some off =>
      match getByte data off with
      | .error e => .error e
      | .ok m =>
        if m ≠ ELEHANT_MARKER then .ok none else
        match getByte data (off + 13) with
        | .error e => .error e
        | .ok s =>
          if s ≠ SEPARATOR then .ok none else
          match data.get? (off + 1) with
          | none => .ok none
          | some seq =>
            .ok (some
              { serial := leBytes (pySlice data (off + 6) (off + 9))
                value := leBytes (pySlice data (off + 9) (off + 13))
                temperature := (leBytes (pySlice data (off + 14) (off + 16)) : ℚ) / 100
                sequence := seq
                raw_data := data })

/-! ### Helper lemmas about the byte-level primitives -/

theorem getD_eq_getElem {data : List Nat} {i : Nat} (h : i < data.length) :
    data.getD i 0 = data[i] := by
  simp [List.getD_eq_getElem?_getD, List.getElem?_eq_getElem h]

theorem get?_eq_some_getElem {data : List Nat} {i : Nat} (h : i < data.length) :
    data.get? i = some data[i] := by
  simp [List.get?_eq_getElem?, List.getElem?_eq_getElem h]

theorem getByte_ok {data : List Nat} {i : Nat} (h : i < data.length) :
    getByte data i = .ok data[i] := by
  unfold getByte
  rw [get?_eq_some_getElem h]

theorem pySlice_eq_drop_take (data : List Nat) (a b : Nat) :
    pySlice data a b = (data.drop a).take (b - a) := by
  unfold pySlice
  rw [List.drop_take]

theorem pySlice_nil {data : List Nat} {a b : Nat} (h : b ≤ a) : pySlice data a b = [] := by
  rw [pySlice_eq_drop_take, Nat.sub_eq_zero_of_le h, List.take_zero]

theorem pySlice_cons {data : List Nat} {a b : Nat} (ha : a < data.length) (hab : a < b) :
    pySlice data a b = data.getD a 0 :: pySlice data (a + 1) b := by
  have hd : data.drop a = data.getD a 0 :: data.drop (a + 1) := by
    rw [getD_eq_getElem ha]
    exact (List.getElem_cons_drop data a ha).symm
  rw [pySlice_eq_drop_take, pySlice_eq_drop_take, hd,
    show b - a = (b - (a + 1)) + 1 from by omega, List.take_succ_cons]

theorem leBytes_pySlice_two {data : List Nat} {a a1 b : Nat} (h1 : a1 = a + 1)
    (hb : b = a + 2) (h : b ≤ data.length) :
    leBytes (pySlice data a b) = data.getD a 0 + 256 * data.getD a1 0 := by
  subst h1 hb
  rw [pySlice_cons (by omega) (by omega), pySlice_cons (by omega) (by omega),
    pySlice_nil (by omega)]
  simp [leBytes]

theorem leBytes_pySlice_three {data : List Nat} {a a1 a2 b : Nat} (h1 : a1 = a + 1)
    (h2 : a2 = a + 2) (hb : b = a + 3) (h : b ≤ data.length) :
    leBytes (pySlice data a b) =
      data.getD a 0 + 256 * data.getD a1 0 + 65536 * data.getD a2 0 := by
  subst h1 h2 hb
  rw [pySlice_cons (by omega) (by omega), pySlice_cons (by omega) (by omega),
    pySlice_cons (by omega) (by omega), pySlice_nil (by omega)]
  simp [leBytes]
  ring

theorem leBytes_pySlice_four {data : List Nat} {a a1 a2 a3 b : Nat} (h1 : a1 = a + 1)
    (h2 : a2 = a + 2) (h3 : a3 = a + 3) (hb : b = a + 4) (h : b ≤ data.length) :
    leBytes (pySlice data a b) =
      data.getD a 0 + 256 * data.getD a1 0 + 65536 * data.getD a2 0 +
        16777216 * data.getD a3 0 := by
  subst h1 h2 h3 hb
  rw [pySlice_cons (by omega) (by omega), pySlice_cons (by omega) (by omega),
    pySlice_cons (by omega) (by omega), pySlice_cons (by omega) (by omega),
    pySlice_nil (by omega)]
  simp [leBytes]
  ring

theorem mem_of_mem_pySlice {data : List Nat} {a b x : Nat} (h : x ∈ pySlice data a b) :
    x ∈ data :=
  List.mem_of_mem_take (List.mem_of_mem_drop h)

theorem leBytes_lt {l : List Nat} (h : ∀ b ∈ l, b < 256) : leBytes l < 256 ^ l.length := by
  induction l with
  | nil => simp [leBytes]
  | cons x xs ih =>
    have hx : x < 256 := h x (by simp)
    have hxs : leBytes xs < 256 ^ xs.length := ih fun b hb => h b (by simp [hb])
    simp only [leBytes, List.length_cons, pow_succ]
    calc x + 256 * leBytes xs < 256 + 256 * leBytes xs := by omega
    _ ≤ 256 * (leBytes xs + 1) := by ring_nf; omega
    _ ≤ 256 ^ xs.length * 256 := by
        rw [Nat.mul_comm (256 ^ xs.length) 256]
        exact Nat.mul_le_mul_left 256 (by omega)

theorem findPayload_ne_nil {md : List (Nat × List Nat)} {data : List Nat}
    (hf : findPayload md = some data) : md ≠ [] := by
  rintro rfl
  simp [findPayload] at hf

/-- The two shapes `logicalOffset` can successfully take. -/
theorem logicalOffset_cases {data : List Nat} {off : Nat}
    (hoff : logicalOffset data = some off) :
    data.length = 17 ∧ off = 0 ∨ data.length = 21 ∧ tagOK data = true ∧ off = 4 := by
  unfold logicalOffset at hoff
  split at hoff
  · rename_i h
    exact Or.inr ⟨h.1, h.2, (Option.some.inj hoff).symm⟩
  · split at hoff
    · rename_i h
      exact Or.inl ⟨h, (Option.some.inj hoff).symm⟩
    · exact absurd hoff (by simp)

theorem logicalOffset_le {data : List Nat} {off : Nat}
    (hoff : logicalOffset data = some off) : off + 16 ≤ data.length := by
  rcases logicalOffset_cases hoff with ⟨h1, rfl⟩ | ⟨h1, _, rfl⟩ <;> omega

/-- Once a payload has been located and its offset determined, `parse_meter_data`
reduces to the marker/separator tests followed by the field extraction. -/
theorem parse_meter_data_reduce {md : List (Nat × List Nat)} {data : List Nat} {off : Nat}
    (hf : findPayload md = some data) (hoff : logicalOffset data = some off) :
    parse_meter_data md =
      if data.getD off 0 ≠ ELEHANT_MARKER then .ok none
      else if data.getD (off + 13) 0 ≠ SEPARATOR then .ok none
      else .ok (some
        { serial := leBytes (pySlice data (off + 6) (off + 9))
          value := leBytes (pySlice data (off + 9) (off + 13))
          temperature := (leBytes (pySlice data (off + 14) (off + 16)) : ℚ) / 100
          sequence := data.getD (off + 1) 0
          raw_data := data }) := by
  have hle := logicalOffset_le hoff
  have hne : data ≠ [] := by rintro rfl; simp at hle
  have hlen : data.length = 17 ∨ data.length = 21 := by
    rcases logicalOffset_cases hoff with ⟨h1, _⟩ | ⟨h1, _, _⟩ <;> omega
  unfold parse_meter_data
  rw [if_neg (findPayload_ne_nil hf), hf]
  simp only [if_neg hne, if_neg (show ¬¬(data.length = 17 ∨ data.length = 21) from
    not_not_intro hlen), hoff]
  rw [getByte_ok (show off < data.length by omega),
    getByte_ok (show off + 13 < data.length by omega)]
  simp only [get?_eq_some_getElem (show off + 1 < data.length by omega)]
  rw [getD_eq_getElem (show off < data.length by omega),
    getD_eq_getElem (show off + 13 < data.length by omega),
    getD_eq_getElem (show off + 1 < data.length by omega)]

/-- C9: the decoder is total.  Every out-of-bounds read is prevented by the
length checks (the marker and separator reads of lines 109/114 sit outside the
`try` block, so an out-of-range index there would propagate an `IndexError`);
for every manufacturer-data mapping the decoder returns `.ok` — a reading or
`None` — and never an uncaught exception. -/
theorem parse_meter_data_never_raises (md : List (Nat × List Nat)) :
    ∃ res, parse_meter_data md = .ok res := by
  by_cases hmd : md = []
  · exact ⟨none, by simp [parse_meter_data, hmd]⟩
  cases hf : findPayload md with
  | none =>
    refine ⟨none, ?_⟩
    unfold parse_meter_data
    rw [if_neg hmd, hf]
  | some data =>
    cases hoff : logicalOffset data with
    | none =>
      refine ⟨none, ?_⟩
      unfold parse_meter_data
      rw [if_neg hmd, hf]
      by_cases hne : data = []
      · simp [hne]
      by_cases hlen : data.length = 17 ∨ data.length = 21
      · simp only [if_neg hne, if_neg (not_not_intro hlen), hoff]
      · simp only [if_neg hne, if_pos hlen]
    | some off =>
      rw [parse_meter_data_reduce hf hoff]
      by_cases h1 : data.getD off 0 ≠ ELEHANT_MARKER
      · exact ⟨none, by rw [if_pos h1]⟩
      by_cases h2 : data.getD (off + 13) 0 ≠ SEPARATOR
      · exact ⟨none, by rw [if_neg h1, if_pos h2]⟩
      exact ⟨some _, by rw [if_neg h1, if_neg h2]⟩

/-- C2: structural rejection.  With the 0xFFFF payload in hand, the decoder
returns `None` when the length is neither 17 nor 21; when a 21-byte payload
does not carry the exact tag `14 FF FF FF`; when the byte at the logical
offset 0 is not the marker `0x80`; and when the byte at logical offset 13 is
not the separator `0x7F`. -/
theorem parse_meter_data_rejects (md : List (Nat × List Nat)) (data : List Nat)
    (hf : findPayload md = some data) :
    (data.length ≠ 17 ∧ data.length ≠ 21 → parse_meter_data md = .ok none)
    ∧ (data.length = 21 → tagOK data ≠ true → parse_meter_data md = .ok none)
    ∧ (∀ off, logicalOffset data = some off → data.getD off 0 ≠ 0x80 →
        parse_meter_data md = .ok none)
    ∧ (∀ off, logicalOffset data = some off → data.getD off 0 = 0x80 →
        data.getD (off + 13) 0 ≠ 0x7F → parse_meter_data md = .ok none) := by
  refine ⟨?_, ?_, ?_, ?_⟩
  · intro ⟨h17, h21⟩
    unfold parse_meter_data
    rw [if_neg (findPayload_ne_nil hf), hf]
    by_cases hne : data = []
    · simp [hne]
    simp only [if_neg hne, if_pos (show ¬(data.length = 17 ∨ data.length = 21) by
      rintro (h | h) <;> omega)]
  · intro h21 htag
    unfold parse_meter_data
    rw [if_neg (findPayload_ne_nil hf), hf]
    have hne : data ≠ [] := by rintro rfl; simp at h21
    have hoff : logicalOffset data = none := by
      unfold logicalOffset
      rw [if_neg (by rintro ⟨-, ht⟩; exact htag ht), if_neg (by omega)]
    simp only [if_neg hne, if_neg (not_not_intro (Or.inr h21)), hoff]
  · intro off hoff h1
    rw [parse_meter_data_reduce hf hoff]
    simp only [ELEHANT_MARKER]
    rw [if_pos h1]
  · intro off hoff h1 h2
    rw [parse_meter_data_reduce hf hoff]
    simp only [ELEHANT_MARKER, SEPARATOR]
    rw [if_neg (not_not_intro h1), if_pos h2]

/-- Witness for C2 at concrete payloads: a 3-byte payload, a 21-byte payload
with a wrong tag, a 17-byte payload with a wrong marker, and a 17-byte payload
with a wrong separator, each decoding to `None`. -/
theorem parse_meter_data_rejects_witness :
    parse_meter_data [(0xFFFF, [1, 2, 3])] = .ok none
    ∧ parse_meter_data
        [(0xFFFF, [0x13, 0xFF, 0xFF, 0xFF, 0x80, 5, 0, 0, 0, 0, 1, 2, 3, 4, 0, 0, 0,
          0x7F, 0x10, 0x27, 0])] = .ok none
    ∧ parse_meter_data [(0xFFFF, [0x81, 5, 0, 0, 0, 0, 1, 2, 3, 4, 0, 0, 0, 0x7F, 0x10, 0x27, 0])] =
        .ok none
    ∧ parse_meter_data [(0xFFFF, [0x80, 5, 0, 0, 0, 0, 1, 2, 3, 4, 0, 0, 0, 0x7E, 0x10, 0x27, 0])] =
        .ok none :=
  ⟨(parse_meter_data_rejects _ _ (by rfl)).1 (by decide),
   (parse_meter_data_rejects _ _ (by rfl)).2.1 (by decide) (by decide),
   (parse_meter_data_rejects _ _ (by rfl)).2.2.1 0 (by decide) (by decide),
   (parse_meter_data_rejects _ _ (by rfl)).2.2.2 0 (by decide) (by decide) (by decide)⟩

theorem parse_none_of_offset_none {md : List (Nat × List Nat)} {data : List Nat}
    (hf : findPayload md = some data) (hoff : logicalOffset data = none) :
    parse_meter_data md = .ok none := by
  unfold parse_meter_data
  rw [if_neg (findPayload_ne_nil hf), hf]
  by_cases hne : data = []
  · simp [hne]
  by_cases hlen : data.length = 17 ∨ data.length = 21
  · simp only [if_neg hne, if_neg (not_not_intro hlen), hoff]
  · simp only [if_neg hne, if_pos hlen]

/-- A synthetic 21-byte payload built exactly as the spec's round-trip property
describes: tag `14 FF FF FF`, marker `0x80` at logical offset 0, the sequence
byte at logical offset 1, the serial at logical offsets 6-8 (little-endian),
the cumulative value at logical offsets 9-12 (little-endian), separator `0x7F`
at logical offset 13, and the raw temperature at logical offsets 14-15
(little-endian); unspecified filler bytes are zero. -/
def encodePayload (seq serial value temp : Nat) : List Nat :=
  [0x14, 0xFF, 0xFF, 0xFF,
   0x80, seq % 256, 0, 0, 0, 0,
   serial % 256, serial / 256 % 256, serial / 65536 % 256,
   value % 256, value / 256 % 256, value / 65536 % 256, value / 16777216 % 256,
   0x7F,
   temp % 256, temp / 256 % 256,
   0]

/-- C1: field extraction.  Whenever the located payload passes the structural
checks (a valid logical offset, marker `0x80` at logical offset 0, separator
`0x7F` at logical offset 13), the decoder returns a reading whose sequence is
the byte at logical offset 1, whose serial is the 3 bytes at logical offset 6
little-endian, whose value is the 4 bytes at logical offset 9 little-endian,
and whose temperature is the 2 bytes at logical offset 14 little-endian
divided by 100; and encoding a synthetic 21-byte payload with chosen fields
and decoding it reproduces those fields exactly. -/
theorem parse_meter_data_fields_and_roundtrip :
    (∀ (md : List (Nat × List Nat)) (data : List Nat) (off : Nat),
      findPayload md = some data → logicalOffset data = some off →
      data.getD off 0 = 0x80 → data.getD (off + 13) 0 = 0x7F →
      parse_meter_data md = .ok (some
        { serial := data.getD (off + 6) 0 + 256 * data.getD (off + 7) 0 +
            65536 * data.getD (off + 8) 0
          value := data.getD (off + 9) 0 + 256 * data.getD (off + 10) 0 +
            65536 * data.getD (off + 11) 0 + 16777216 * data.getD (off + 12) 0
          temperature :=
            ((data.getD (off + 14) 0 + 256 * data.getD (off + 15) 0 : Nat) : ℚ) / 100
          sequence := data.getD (off + 1) 0
          raw_data := data }))
    ∧ (∀ seq serial value temp : Nat,
      seq < 256 → serial < 16777216 → value < 4294967296 → temp < 65536 →
      parse_meter_data [(0xFFFF, encodePayload seq serial value temp)] = .ok (some
        { serial := serial
          value := value
          temperature := (temp : ℚ) / 100
          sequence := seq
          raw_data := encodePayload seq serial value temp })) := by
  have general : ∀ (md : List (Nat × List Nat)) (data : List Nat) (off : Nat),
      findPayload md = some data → logicalOffset data = some off →
      data.getD off 0 = 0x80 → data.getD (off + 13) 0 = 0x7F →
      parse_meter_data md = .ok (some
        { serial := data.getD (off + 6) 0 + 256 * data.getD (off + 7) 0 +
            65536 * data.getD (off + 8) 0
          value := data.getD (off + 9) 0 + 256 * data.getD (off + 10) 0 +
            65536 * data.getD (off + 11) 0 + 16777216 * data.getD (off + 12) 0
          temperature :=
            ((data.getD (off + 14) 0 + 256 * data.getD (off + 15) 0 : Nat) : ℚ) / 100
          sequence := data.getD (off + 1) 0
          raw_data := data }) := by
    intro md data off hf hoff hm hs
    have hle := logicalOffset_le hoff
    rw [parse_meter_data_reduce hf hoff,
      if_neg (not_not_intro (show data.getD off 0 = ELEHANT_MARKER by
        rw [hm]; rfl)),
      if_neg (not_not_intro (show data.getD (off + 13) 0 = SEPARATOR by
        rw [hs]; rfl)),
      leBytes_pySlice_three (show off + 7 = off + 6 + 1 by omega)
        (show off + 8 = off + 6 + 2 by omega) (show off + 9 = off + 6 + 3 by omega)
        (show off + 9 ≤ data.length by omega),
      leBytes_pySlice_four (show off + 10 = off + 9 + 1 by omega)
        (show off + 11 = off + 9 + 2 by omega) (show off + 12 = off + 9 + 3 by omega)
        (show off + 13 = off + 9 + 4 by omega) (show off + 13 ≤ data.length by omega),
      leBytes_pySlice_two (show off + 15 = off + 14 + 1 by omega)
        (show off + 16 = off + 14 + 2 by omega) (show off + 16 ≤ data.length by omega)]
  refine ⟨general, ?_⟩
  intro seq serial value temp hseq hserial hvalue htemp
  have h := general [(0xFFFF, encodePayload seq serial value temp)]
    (encodePayload seq serial value temp) 4 rfl rfl rfl rfl
  rw [h]
  simp only [Except.ok.injEq, Option.some.injEq, MeterReading.mk.injEq]
  refine ⟨?_, ?_, ?_, ?_, trivial⟩
  · show serial % 256 + 256 * (serial / 256 % 256) + 65536 * (serial / 65536 % 256) = serial
    omega
  · show value % 256 + 256 * (value / 256 % 256) + 65536 * (value / 65536 % 256) +
      16777216 * (value / 16777216 % 256) = value
    omega
  · show ((temp % 256 + 256 * (temp / 256 % 256) : Nat) : ℚ) / 100 = (temp : ℚ) / 100
    rw [show temp % 256 + 256 * (temp / 256 % 256) = temp from by omega]
  · show seq % 256 = seq
    omega

/-- Witness for C1 at concrete field values. -/
theorem parse_meter_data_fields_and_roundtrip_witness :
    parse_meter_data [(0xFFFF, encodePayload 7 11189196 123456 2345)] = .ok (some
      { serial := 11189196
        value := 123456
        temperature := (2345 : ℚ) / 100
        sequence := 7
        raw_data := encodePayload 7 11189196 123456 2345 }) :=
  parse_meter_data_fields_and_roundtrip.2 7 11189196 123456 2345
    (by decide) (by decide) (by decide) (by decide)

/-- C10: the two temperature bytes are read unsigned (no sign handling in
`int.from_bytes(..., "little")` without `signed=True`), so every successful
decode of a genuine byte string (all bytes < 256) has a temperature in
`[0, 655.35]`; a negative temperature is never produced. -/
theorem parse_meter_data_temperature_range (md : List (Nat × List Nat))
    (data : List Nat) (r : MeterReading) (hf : findPayload md = some data)
    (hb : ∀ b ∈ data, b < 256) (hp : parse_meter_data md = .ok (some r)) :
    0 ≤ r.temperature ∧ r.temperature ≤ 655.35 := by
  cases hoff : logicalOffset data with
  | none =>
    rw [parse_none_of_offset_none hf hoff] at hp
    exact absurd hp (by simp)
  | some off =>
    rw [parse_meter_data_reduce hf hoff] at hp
    by_cases h1 : data.getD off 0 ≠ ELEHANT_MARKER
    · rw [if_pos h1] at hp
      exact absurd hp (by simp)
    by_cases h2 : data.getD (off + 13) 0 ≠ SEPARATOR
    · rw [if_neg h1, if_pos h2] at hp
      exact absurd hp (by simp)
    rw [if_neg h1, if_neg h2] at hp
    have hr := Option.some.inj (Except.ok.inj hp)
    have htemp : r.temperature =
        (leBytes (pySlice data (off + 14) (off + 16)) : ℚ) / 100 := by
      rw [← hr]
    have hn : leBytes (pySlice data (off + 14) (off + 16)) ≤ 65535 := by
      have hlt := leBytes_lt (l := pySlice data (off + 14) (off + 16))
        (fun b hbm => hb b (mem_of_mem_pySlice hbm))
      have hlen2 : (pySlice data (off + 14) (off + 16)).length ≤ 2 := by
        rw [pySlice_eq_drop_take]
        simp only [List.length_take, List.length_drop]
        omega
      have hpow : (256 : Nat) ^ (pySlice data (off + 14) (off + 16)).length ≤ 256 ^ 2 :=
        Nat.pow_le_pow_right (by omega) hlen2
      omega
    rw [htemp]
    constructor
    · positivity
    · rw [show (655.35 : ℚ) = 65535 / 100 from by norm_num]
      have : (leBytes (pySlice data (off + 14) (off + 16)) : ℚ) ≤ 65535 := by
        exact_mod_cast hn
      gcongr

/-- Witness for C10 on a concrete successfully-decoded payload. -/
theorem parse_meter_data_temperature_range_witness :
    0 ≤ ((2345 : ℚ) / 100) ∧ ((2345 : ℚ) / 100) ≤ 655.35 := by
  have h := parse_meter_data_temperature_range
    [(0xFFFF, encodePayload 7 11189196 123456 2345)] (encodePayload 7 11189196 123456 2345)
    { serial := 11189196, value := 123456, temperature := (2345 : ℚ) / 100,
      sequence := 7, raw_data := encodePayload 7 11189196 123456 2345 }
    rfl (by decide) (by
      have hgen := @parse_meter_data_reduce
        [(0xFFFF, encodePayload 7 11189196 123456 2345)]
        (encodePayload 7 11189196 123456 2345) 4 rfl rfl
      rw [hgen]
      norm_num [encodePayload, ELEHANT_MARKER, SEPARATOR, pySlice, leBytes, List.getD])
  exact h

/-! ### Identity extractor: `extract_info_from_mac` (scanner.py lines 36-74)

Python strings are modelled as `List Char`.  `int(s, 16)` is modelled by
`pyIntHex` below, following CPython's `long_from_string` for ASCII input:
optional surrounding whitespace, one optional sign, an optional `0x`/`0X`
prefix (with at most one underscore straight after it), then hexadecimal
digits with single underscores allowed between digits.  Non-ASCII digit and
whitespace leniencies of CPython are outside the model; every input
considered here is ASCII. -/

/-- ASCII hexadecimal digit test, as CPython's digit table accepts for base 16. -/
def isHexDig (c : Char) : Bool :=
  decide (('0' ≤ c ∧ c ≤ '9') ∨ ('a' ≤ c ∧ c ≤ 'f') ∨ ('A' ≤ c ∧ c ≤ 'F'))

/-- Numeric value of an ASCII hexadecimal digit. -/
def hexVal (c : Char) : Nat :=
  if '0' ≤ c ∧ c ≤ '9' then c.toNat - '0'.toNat
  else if 'a' ≤ c ∧ c ≤ 'f' then c.toNat - 'a'.toNat + 10
  else c.toNat - 'A'.toNat + 10

/-- Remove leading whitespace. -/
def stripLeadWS : List Char → List Char
  | [] => []
  | c :: rest => if c.isWhitespace then stripLeadWS rest else c :: rest

/-- Python `str.strip()` (ASCII whitespace). -/
def stripWS (s : List Char) : List Char :=
  (stripLeadWS (stripLeadWS s).reverse).reverse

/-- Consume one optional leading sign; `true` means negative. -/
def takeSign : List Char → Bool × List Char
  | [] => (false, [])
  | c :: rest =>
    if c = '+' then (false, rest)
    else if c = '-' then (true, rest)
    else (false, c :: rest)

/-- Drop at most one underscore (allowed straight after a `0x` base marker). -/
def dropOneUnderscore : List Char → List Char
  | '_' :: rest => rest
  | s => s

/-- Consume an optional `0x`/`0X` base marker, plus one optional underscore
straight after it. -/
def drop0x (s : List Char) : List Char :=
  match s with
  | c0 :: c1 :: rest =>
    if c0 = '0' ∧ (c1 = 'x' ∨ c1 = 'X') then dropOneUnderscore rest else s
  | _ => s

/-- Digit-run validity after an accepted digit: underscores may only sit
between two digits, never doubled, leading or trailing. -/
def validHexAux : List Char → Bool
  | [] => true
  | c :: rest =>
    if c = '_' then
      match rest with
      | [] => false
      | d :: r2 => isHexDig d && validHexAux r2
    else isHexDig c && validHexAux rest

/-- A valid digit run: nonempty, starting with a digit. -/
def validHex : List Char → Bool
  | [] => false
  | c :: rest => isHexDig c && validHexAux rest

/-- Value of a digit run, underscores skipped (most significant first). -/
def hexValue (s : List Char) : Nat :=
  (s.filter (fun c => c != '_')).foldl (fun a c => 16 * a + hexVal c) 0

/-- Modelled from Python `int(s, 16)` for ASCII strings (see section comment);
`none` is a raised `ValueError`, which `extract_info_from_mac` catches. -/
def pyIntHex (s : List Char) : Option Int :=
  let t1 := stripWS s
  let p := takeSign t1
  let t2 := drop0x p.2
  if validHex t2 then
    some (if p.1 then -(hexValue t2 : Int) else (hexValue t2 : Int))
  else none

/-- Python `mac.split(":")`. -/
def splitColon : List Char → List (List Char)
  | [] => [[]]
  | c :: rest =>
    if c = ':' then [] :: splitColon rest
    else
      match splitColon rest with
      | [] => [[c]]
      | p :: ps => (c :: p) :: ps

/-- `GAS_MODELS` from `const.py`. -/
def GAS_MODELS : List Int :=
  [1, 2, 3, 4, 5, 16, 17, 18, 19, 20, 32, 33, 34, 35, 36, 48, 49, 50, 51, 52,
   64, 65, 66, 67, 68, 80, 81, 82, 83, 84]

/-- `WATER_MODELS` from `const.py`. -/
def WATER_MODELS : List Int := [1, 2, 3, 4, 5, 6]

/-- The two device categories (`DEVICE_TYPE_GAS` / `DEVICE_TYPE_WATER`). -/
inductive DeviceType where
  | gas
  | water
  deriving Repr, DecidableEq

/-- Modelled from the spec: `scanner.py` imports `MAC_PREFIX` from `const.py`,
but `const.py` only defines `MAC_PREFIXES`; the spec designates a single
vendor prefix, and both the spec's examples and the detection callback in
`scanner.py` (line 181) use `"B0:"`. -/
def MAC_PREFIX_CHARS : List Char := ['B', '0', ':']

/-- The dictionary returned by a successful `extract_info_from_mac`. -/
structure DeviceIdentity where
  serial : Int
  model : Int
  type_byte : Int
  device_type : DeviceType
  mac : List Char
  deriving Repr, DecidableEq

/-- `extract_info_from_mac(mac)` from `scanner.py` lines 36-74.  The
`try ... except (ValueError, IndexError)` catches every `int()` failure, so
the function is total and failure is `none`.  The Python local
`parts = mac.split(":")` is inlined as `splitColon mac`. -/
def extract_info_from_mac (mac : List Char) : Option DeviceIdentity :=
  if mac = [] ∨ ¬ MAC_PREFIX_CHARS.isPrefixOf mac then none
  else if (splitColon mac).length ≠ 6 then none
  else
    match pyIntHex ((splitColon mac).getD 1 []), pyIntHex ((splitColon mac).getD 2 []),
      pyIntHex ((splitColon mac).getD 3 [] ++ (splitColon mac).getD 4 [] ++
        (splitColon mac).getD 5 []) with
    | some model, some tb, some serial =>
      some
        { serial := serial
          model := model
          type_byte := tb
          device_type :=
            if model ∈ GAS_MODELS then .gas
            else if model ∈ WATER_MODELS then .water
            else if tb = 2 ∨ tb = 3 ∨ tb = 4 then .water
            else .gas
          mac := mac }
    | _, _, _ => none

/-! ### Character-class facts used for valid-MAC reasoning -/

/-- The 22 ASCII hexadecimal digit characters; a "hexadecimal octet" in the
claims is a pair of these. -/
def hexDigitChars : List Char :=
  ['A', 'B', 'C', 'D', 'E', 'F', 'a', 'b', 'c', 'd', 'e', 'f',
   '9', '8', '7', '6', '5', '4', '3', '2', '1', '0']

theorem hexChar_fact {P : Char → Bool} (hall : hexDigitChars.all P = true) {c : Char}
    (hc : c ∈ hexDigitChars) : P c = true := by
  rw [List.all_eq_true] at hall
  exact hall c hc

theorem hex_isHexDig {c : Char} (hc : c ∈ hexDigitChars) : isHexDig c = true :=
  hexChar_fact (by decide) hc

theorem hex_ne_colon {c : Char} (hc : c ∈ hexDigitChars) : c ≠ ':' := by
  have h := hexChar_fact (P := fun d => d != ':') (by decide) hc
  simpa using h

theorem hex_ne_plus {c : Char} (hc : c ∈ hexDigitChars) : c ≠ '+' := by
  have h := hexChar_fact (P := fun d => d != '+') (by decide) hc
  simpa using h

theorem hex_ne_minus {c : Char} (hc : c ∈ hexDigitChars) : c ≠ '-' := by
  have h := hexChar_fact (P := fun d => d != '-') (by decide) hc
  simpa using h

theorem hex_ne_underscore {c : Char} (hc : c ∈ hexDigitChars) : c ≠ '_' := by
  have h := hexChar_fact (P := fun d => d != '_') (by decide) hc
  simpa using h

theorem hex_ne_x {c : Char} (hc : c ∈ hexDigitChars) : c ≠ 'x' ∧ c ≠ 'X' := by
  have h := hexChar_fact (P := fun d => d != 'x' && d != 'X') (by decide) hc
  simp only [Bool.and_eq_true, bne_iff_ne] at h
  exact h

theorem hex_not_ws {c : Char} (hc : c ∈ hexDigitChars) : c.isWhitespace = false := by
  have h := hexChar_fact (P := fun d => !d.isWhitespace) (by decide) hc
  simpa using h

/-! ### `splitColon` on colon-free chunks -/

theorem splitColon_no_colon {p : List Char} (hp : ∀ c ∈ p, c ≠ ':') :
    splitColon p = [p] := by
  induction p with
  | nil => rfl
  | cons c cs ih =>
    have hc : c ≠ ':' := hp c (by simp)
    simp only [splitColon, if_neg hc, ih (fun d hd => hp d (by simp [hd]))]

theorem splitColon_append {p : List Char} (hp : ∀ c ∈ p, c ≠ ':') (s : List Char) :
    splitColon (p ++ ':' :: s) = p :: splitColon s := by
  induction p with
  | nil => simp [splitColon]
  | cons c cs ih =>
    have hc : c ≠ ':' := hp c (by simp)
    simp only [List.cons_append, splitColon, if_neg hc, List.append_eq,
      ih (fun d hd => hp d (by simp [hd]))]

/-! ### `pyIntHex` on a plain run of hexadecimal digits -/

theorem stripLeadWS_hex {l : List Char} (h : ∀ c ∈ l, c ∈ hexDigitChars) :
    stripLeadWS l = l := by
  cases l with
  | nil => rfl
  | cons c cs =>
    have hw : c.isWhitespace = false := hex_not_ws (h c (by simp))
    simp [stripLeadWS, hw]

theorem stripWS_hex {l : List Char} (h : ∀ c ∈ l, c ∈ hexDigitChars) :
    stripWS l = l := by
  unfold stripWS
  rw [stripLeadWS_hex h, stripLeadWS_hex (fun c hc => h c (List.mem_reverse.mp hc)),
    List.reverse_reverse]

theorem takeSign_hex {l : List Char} (h : ∀ c ∈ l, c ∈ hexDigitChars) :
    takeSign l = (false, l) := by
  cases l with
  | nil => rfl
  | cons c cs =>
    have h1 : c ≠ '+' := hex_ne_plus (h c (by simp))
    have h2 : c ≠ '-' := hex_ne_minus (h c (by simp))
    simp [takeSign, h1, h2]

theorem drop0x_hex {l : List Char} (h : ∀ c ∈ l, c ∈ hexDigitChars) :
    drop0x l = l := by
  cases l with
  | nil => rfl
  | cons c0 rest =>
    cases rest with
    | nil => rfl
    | cons c1 r2 =>
      have hx := hex_ne_x (h c1 (by simp))
      simp only [drop0x]
      rw [if_neg (by rintro ⟨-, h1 | h1⟩ <;> [exact hx.1 h1; exact hx.2 h1])]

theorem validHexAux_hex {l : List Char} (h : ∀ c ∈ l, c ∈ hexDigitChars) :
    validHexAux l = true := by
  induction l with
  | nil => rfl
  | cons c cs ih =>
    have hu : c ≠ '_' := hex_ne_underscore (h c (by simp))
    unfold validHexAux
    rw [if_neg hu, hex_isHexDig (h c (by simp)), ih (fun d hd => h d (by simp [hd]))]
    rfl

theorem validHex_hex {l : List Char} (hne : l ≠ []) (h : ∀ c ∈ l, c ∈ hexDigitChars) :
    validHex l = true := by
  cases l with
  | nil => exact absurd rfl hne
  | cons c cs =>
    simp only [validHex]
    rw [hex_isHexDig (h c (by simp)), validHexAux_hex (fun d hd => h d (by simp [hd]))]
    rfl

theorem filter_hex {l : List Char} (h : ∀ c ∈ l, c ∈ hexDigitChars) :
    l.filter (fun c => c != '_') = l :=
  List.filter_eq_self.mpr fun c hc => by simpa using hex_ne_underscore (h c hc)

theorem pyIntHex_hex {l : List Char} (hne : l ≠ []) (h : ∀ c ∈ l, c ∈ hexDigitChars) :
    pyIntHex l = some ((l.foldl (fun a c => 16 * a + hexVal c) 0 : Nat) : Int) := by
  simp only [pyIntHex, stripWS_hex h, takeSign_hex h, drop0x_hex h]
  rw [if_pos (validHex_hex hne h)]
  simp only [Bool.false_eq_true, if_false, hexValue, filter_hex h]

/-- Once the prefix and part-count checks pass, `extract_info_from_mac`
reduces to the three `int(..., 16)` conversions. -/
theorem extract_info_from_mac_eval {mac : List Char} {parts : List (List Char)}
    (hsplit : splitColon mac = parts) (hne : mac ≠ [])
    (hpre : MAC_PREFIX_CHARS.isPrefixOf mac = true) (h6 : parts.length = 6) :
    extract_info_from_mac mac =
      match pyIntHex (parts.getD 1 []), pyIntHex (parts.getD 2 []),
        pyIntHex (parts.getD 3 [] ++ parts.getD 4 [] ++ parts.getD 5 []) with
      | some model, some tb, some serial =>
        some
          { serial := serial
            model := model
            type_byte := tb
            device_type :=
              if model ∈ GAS_MODELS then .gas
              else if model ∈ WATER_MODELS then .water
              else if tb = 2 ∨ tb = 3 ∨ tb = 4 then .water
              else .gas
            mac := mac }
      | _, _, _ => none := by
  unfold extract_info_from_mac
  rw [if_neg (not_or.mpr ⟨hne, not_not_intro hpre⟩), hsplit,
    if_neg (not_not_intro h6)]

/-- C3: on every MAC string of the form `B0:xx:xx:xx:xx:xx` whose octets are
hexadecimal digit pairs, `extract_info_from_mac` returns an identity whose
`model` is the value of octet 2, whose `type_byte` is the value of octet 3,
and whose `serial` is the value of the hex concatenation of octets 4-6; in
particular `B0:01:02:AA:BB:CC` gives model 1, type_byte 2 and serial
11189196. -/
theorem extract_info_from_mac_valid :
    (∀ c1 c2 c3 c4 c5 c6 c7 c8 c9 c10 : Char,
      c1 ∈ hexDigitChars → c2 ∈ hexDigitChars → c3 ∈ hexDigitChars →
      c4 ∈ hexDigitChars → c5 ∈ hexDigitChars → c6 ∈ hexDigitChars →
      c7 ∈ hexDigitChars → c8 ∈ hexDigitChars → c9 ∈ hexDigitChars →
      c10 ∈ hexDigitChars →
      ∃ ident : DeviceIdentity,
        extract_info_from_mac
          ('B' :: '0' :: ':' :: c1 :: c2 :: ':' :: c3 :: c4 :: ':' :: c5 :: c6 :: ':' ::
            c7 :: c8 :: ':' :: c9 :: c10 :: []) = some ident
        ∧ ident.model = ((16 * hexVal c1 + hexVal c2 : Nat) : Int)
        ∧ ident.type_byte = ((16 * hexVal c3 + hexVal c4 : Nat) : Int)
        ∧ ident.serial = ((1048576 * hexVal c5 + 65536 * hexVal c6 + 4096 * hexVal c7 +
            256 * hexVal c8 + 16 * hexVal c9 + hexVal c10 : Nat) : Int))
    ∧ (extract_info_from_mac
        ['B', '0', ':', '0', '1', ':', '0', '2', ':', 'A', 'A', ':', 'B', 'B', ':', 'C', 'C']).map
        (fun ident => (ident.model, ident.type_byte, ident.serial)) =
      some (1, 2, 11189196) := by
  constructor
  · intro c1 c2 c3 c4 c5 c6 c7 c8 c9 c10 h1 h2 h3 h4 h5 h6 h7 h8 h9 h10
    have pairMem : ∀ {a b : Char}, a ∈ hexDigitChars → b ∈ hexDigitChars →
        ∀ c ∈ ([a, b] : List Char), c ∈ hexDigitChars := by
      intro a b ha hb c hc
      rcases List.mem_cons.mp hc with rfl | hc2
      · exact ha
      · rcases List.mem_cons.mp hc2 with rfl | h0
        · exact hb
        · simp at h0
    have pairNC : ∀ {a b : Char}, a ∈ hexDigitChars → b ∈ hexDigitChars →
        ∀ c ∈ ([a, b] : List Char), c ≠ ':' := by
      intro a b ha hb c hc
      exact hex_ne_colon (pairMem ha hb c hc)
    have hsplit : splitColon
        ('B' :: '0' :: ':' :: c1 :: c2 :: ':' :: c3 :: c4 :: ':' :: c5 :: c6 :: ':' ::
          c7 :: c8 :: ':' :: c9 :: c10 :: []) =
        [['B', '0'], [c1, c2], [c3, c4], [c5, c6], [c7, c8], [c9, c10]] := by
      show splitColon (['B', '0'] ++ ':' :: ([c1, c2] ++ ':' :: ([c3, c4] ++ ':' ::
        ([c5, c6] ++ ':' :: ([c7, c8] ++ ':' :: [c9, c10]))))) = _
      rw [splitColon_append (by decide), splitColon_append (pairNC h1 h2),
        splitColon_append (pairNC h3 h4), splitColon_append (pairNC h5 h6),
        splitColon_append (pairNC h7 h8), splitColon_no_colon (pairNC h9 h10)]
    rw [extract_info_from_mac_eval hsplit (by simp) rfl rfl]
    have g1 : ([['B', '0'], [c1, c2], [c3, c4], [c5, c6], [c7, c8], [c9, c10]] :
        List (List Char)).getD 1 [] = [c1, c2] := rfl
    have g2 : ([['B', '0'], [c1, c2], [c3, c4], [c5, c6], [c7, c8], [c9, c10]] :
        List (List Char)).getD 2 [] = [c3, c4] := rfl
    have gcat : ([['B', '0'], [c1, c2], [c3, c4], [c5, c6], [c7, c8], [c9, c10]] :
          List (List Char)).getD 3 [] ++
        ([['B', '0'], [c1, c2], [c3, c4], [c5, c6], [c7, c8], [c9, c10]] :
          List (List Char)).getD 4 [] ++
        ([['B', '0'], [c1, c2], [c3, c4], [c5, c6], [c7, c8], [c9, c10]] :
          List (List Char)).getD 5 [] = [c5, c6, c7, c8, c9, c10] := rfl
    rw [g1, g2, gcat, pyIntHex_hex (by simp) (pairMem h1 h2),
      pyIntHex_hex (by simp) (pairMem h3 h4),
      pyIntHex_hex (by simp) (by
        intro d hd
        simp only [List.mem_cons, List.not_mem_nil, or_false] at hd
        rcases hd with rfl | rfl | rfl | rfl | rfl | rfl <;> assumption)]
    refine ⟨_, rfl, ?_, ?_, ?_⟩
    · show ((List.foldl (fun a c => 16 * a + hexVal c) 0 [c1, c2] : Nat) : Int) = _
      congr 1
      simp [List.foldl]
      try ring
    · show ((List.foldl (fun a c => 16 * a + hexVal c) 0 [c3, c4] : Nat) : Int) = _
      congr 1
      simp [List.foldl]
      try ring
    · show ((List.foldl (fun a c => 16 * a + hexVal c) 0
          [c5, c6, c7, c8, c9, c10] : Nat) : Int) = _
      congr 1
      simp [List.foldl]
      try ring
  · decide

/-- Witness for C3 at the MAC `B0:01:02:AA:BB:CC`. -/
theorem extract_info_from_mac_valid_witness :
    ∃ ident : DeviceIdentity,
      extract_info_from_mac
        ('B' :: '0' :: ':' :: '0' :: '1' :: ':' :: '0' :: '2' :: ':' :: 'A' :: 'A' :: ':' ::
          'B' :: 'B' :: ':' :: 'C' :: 'C' :: []) = some ident
      ∧ ident.model = ((16 * hexVal '0' + hexVal '1' : Nat) : Int)
      ∧ ident.type_byte = ((16 * hexVal '0' + hexVal '2' : Nat) : Int)
      ∧ ident.serial = ((1048576 * hexVal 'A' + 65536 * hexVal 'A' + 4096 * hexVal 'B' +
          256 * hexVal 'B' + 16 * hexVal 'C' + hexVal 'C' : Nat) : Int) :=
  extract_info_from_mac_valid.1 '0' '1' '0' '2' 'A' 'A' 'B' 'B' 'C' 'C'
    (by decide) (by decide) (by decide) (by decide) (by decide)
    (by decide) (by decide) (by decide) (by decide) (by decide)

/-- A two-hex-digit octet, as the claims' "hexadecimal octet". -/
def isHexOctet (p : List Char) : Bool :=
  match p with
  | [a, b] => isHexDig a && isHexDig b
  | _ => false

/-- The MAC shape claim C4 quantifies over, written from the claim's own
words: vendor prefix `B0:`, and the colon-split parts are six two-hex-digit
octets. -/
def specWellFormedMac (mac : List Char) : Bool :=
  MAC_PREFIX_CHARS.isPrefixOf mac && (splitColon mac).length == 6 &&
    (splitColon mac).all isHexOctet

/-- The malformed MAC `B0:+1:02:AA:BB:CC`: its second octet `+1` is not a
hexadecimal octet, yet Python's `int("+1", 16)` accepts it. -/
def cexMac : List Char :=
  ['B', '0', ':', '+', '1', ':', '0', '2', ':', 'A', 'A', ':', 'B', 'B', ':', 'C', 'C']

/-- C4 counterexample: `B0:+1:02:AA:BB:CC` does not match the 6-octet
colon-separated hexadecimal MAC form, yet `extract_info_from_mac` returns an
identity (model 1) rather than `None`, because `int(part, 16)` tolerates a
leading sign. -/
theorem extract_info_from_mac_malformed_counterexample :
    specWellFormedMac cexMac = false ∧ extract_info_from_mac cexMac ≠ none := by
  decide

/-- C4 amended: `extract_info_from_mac` returns `None` whenever the vendor
prefix is missing, the colon-split does not give exactly 6 parts, or any of
the three base-16 conversions fails; and it never raises (it is a total
function into `Option`, every `int()` error being caught by the
`except (ValueError, IndexError)` of line 72).  Octets are accepted whenever
Python's `int(octet, 16)` accepts them — including sign, whitespace,
underscore and `0x` forms — not only canonical two-hex-digit octets. -/
theorem extract_info_from_mac_none_cases (mac : List Char) :
    (¬ MAC_PREFIX_CHARS.isPrefixOf mac = true → extract_info_from_mac mac = none)
    ∧ ((splitColon mac).length ≠ 6 → extract_info_from_mac mac = none)
    ∧ (pyIntHex ((splitColon mac).getD 1 []) = none ∨
        pyIntHex ((splitColon mac).getD 2 []) = none ∨
        pyIntHex ((splitColon mac).getD 3 [] ++ (splitColon mac).getD 4 [] ++
          (splitColon mac).getD 5 []) = none →
        extract_info_from_mac mac = none) := by
  refine ⟨?_, ?_, ?_⟩
  · intro h
    unfold extract_info_from_mac
    rw [if_pos (Or.inr h)]
  · intro h
    unfold extract_info_from_mac
    by_cases h0 : mac = [] ∨ ¬ MAC_PREFIX_CHARS.isPrefixOf mac
    · rw [if_pos h0]
    · rw [if_neg h0, if_pos h]
  · intro h
    unfold extract_info_from_mac
    by_cases h0 : mac = [] ∨ ¬ MAC_PREFIX_CHARS.isPrefixOf mac
    · rw [if_pos h0]
    rw [if_neg h0]
    by_cases h6 : (splitColon mac).length ≠ 6
    · rw [if_pos h6]
    rw [if_neg h6]
    rcases h with h | h | h
    · rw [h]
    · cases hA : pyIntHex ((splitColon mac).getD 1 []) with
      | none => rfl
      | some a => rw [h]
    · cases hA : pyIntHex ((splitColon mac).getD 1 []) with
      | none => rfl
      | some a =>
        cases hB : pyIntHex ((splitColon mac).getD 2 []) with
        | none => rfl
        | some b => rw [h]

/-- Witness for C4's amended claim: a wrong prefix, a five-part MAC, and a
MAC with an unconvertible octet each give `None`. -/
theorem extract_info_from_mac_none_cases_witness :
    extract_info_from_mac
      ['C', '0', ':', '0', '1', ':', '0', '2', ':', 'A', 'A', ':', 'B', 'B', ':', 'C', 'C'] = none
    ∧ extract_info_from_mac
      ['B', '0', ':', '0', '1', ':', '0', '2', ':', 'A', 'A', ':', 'B', 'B'] = none
    ∧ extract_info_from_mac
      ['B', '0', ':', '0', 'g', ':', '0', '2', ':', 'A', 'A', ':', 'B', 'B', ':', 'C', 'C'] = none :=
  ⟨(extract_info_from_mac_none_cases _).1 (by decide),
   (extract_info_from_mac_none_cases _).2.1 (by decide),
   (extract_info_from_mac_none_cases _).2.2 (Or.inl (by decide))⟩

/-! ### History tracker: `ElehantHistoryScanner` (scanner.py lines 147-264)

The tracker state is the `seen_devices` dict (`{ mac: {...} }`), modelled as
an association list in insertion order.  Timestamps come from `time.time()`
(a float), modelled as `ℚ`; `rssi` is a signed integer. -/

/-- The slice of the Home-Assistant `BluetoothServiceInfoBleak` object the
tracker reads (`service_info.rssi` only). -/
structure ServiceInfo where
  rssi : Int
  deriving Repr, DecidableEq

/-- One entry of `seen_devices` (lines 212-223, 234-237).  The Python keys
`last_value`, `last_temperature` and `last_raw` are absent until the first
successful decode; they are `Option` fields starting as `none`. -/
structure DeviceRecord where
  serial : Int
  model : Int
  type_byte : Int
  device_type : DeviceType
  mac : List Char
  first_seen : ℚ
  last_seen : ℚ
  packets : Nat
  best_rssi : Int
  manufacturer_data : List (Nat × List Nat)
  last_value : Option Nat
  last_temperature : Option ℚ
  last_raw : Option (List Nat)
  deriving Repr, DecidableEq

/-- Dict lookup: `self.seen_devices[mac]` / the `mac in self.seen_devices`
test. -/
def lookupDev (st : List (List Char × DeviceRecord)) (mac : List Char) :
    Option DeviceRecord :=
  (st.find? (fun p => decide (p.1 = mac))).map Prod.snd

/-- Dict assignment `self.seen_devices[mac] = r`: replace in place when the
key exists, else append (Python dicts keep insertion order). -/
def setDev : List (List Char × DeviceRecord) → List Char → DeviceRecord →
    List (List Char × DeviceRecord)
  | [], mac, r => [(mac, r)]
  | (k, v) :: rest, mac, r =>
    if k = mac then (k, r) :: rest else (k, v) :: setDev rest mac r

/-- The fresh record of lines 212-223. -/
def newRecord (mac_info : DeviceIdentity) (mac : List Char) (si : ServiceInfo)
    (timestamp : ℚ) : DeviceRecord :=
  { serial := mac_info.serial
    model := mac_info.model
    type_byte := mac_info.type_byte
    device_type := mac_info.device_type
    mac := mac
    first_seen := timestamp
    last_seen := timestamp
    packets := 0
    best_rssi := si.rssi
    manufacturer_data := []
    last_value := none
    last_temperature := none
    last_raw := none }

/-- Lines 227-231: `device_info["last_seen"] = timestamp`,
`device_info["packets"] += 1`, and the `best_rssi` raise. -/
def bumpRecord (r : DeviceRecord) (si : ServiceInfo) (timestamp : ℚ) : DeviceRecord :=
  { r with
    last_seen := timestamp
    packets := r.packets + 1
    best_rssi := if si.rssi > r.best_rssi then si.rssi else r.best_rssi }

/-- Lines 233-237: `if parsed:` store the decoded reading fields. -/
def applyParsed (r : DeviceRecord) : Option MeterReading → DeviceRecord
  | some p =>
    { r with
      last_value := some p.value
      last_temperature := some p.temperature
      last_raw := some p.raw_data }
  | none => r

/-- Lines 226-240: `device_info = self.seen_devices[mac]` followed by the
in-place mutations, written as a functional read-modify-write of the entry.
The `none` arm is unreachable when the caller has just ensured the key
exists. -/
def updateExisting (st1 : List (List Char × DeviceRecord)) (mac : List Char)
    (parsed : Option MeterReading) (si : ServiceInfo) (timestamp : ℚ) :
    List (List Char × DeviceRecord) :=
  match lookupDev st1 mac with
  | none => st1
  | some r => setDev st1 mac (applyParsed (bumpRecord r si timestamp) parsed)

/-- `_update_history(mac, mac_info, parsed, service_info, timestamp)` (lines
208-240): create the record when the MAC is unseen (lines 210-223), then
unconditionally update it (lines 226-240).  (`_notify_meter_update` only
touches the coordinator, never `seen_devices`.) -/
def update_history (st : List (List Char × DeviceRecord)) (mac : List Char)
    (mac_info : DeviceIdentity) (parsed : Option MeterReading) (si : ServiceInfo)
    (timestamp : ℚ) : List (List Char × DeviceRecord) :=
  updateExisting
    (if lookupDev st mac = none then
      st ++ [(mac, newRecord mac_info mac si timestamp)] else st)
    mac parsed si timestamp

/-- `get_recent_devices(hours)` (lines 256-264), with `now = time.time()`
passed explicitly: keep every record with `last_seen >= now - hours*3600`.
The source wraps each record as `{"mac": mac, **info}` (where `**info`'s own
`mac` key wins); the model returns the records. -/
def get_recent_devices (st : List (List Char × DeviceRecord)) (now : ℚ)
    (hours : Int) : List DeviceRecord :=
  (st.filter (fun p => decide (now - hours * 3600 ≤ p.2.last_seen))).map Prod.snd

/-- One advertisement event as fed to `_update_history`. -/
structure Observation where
  mac : List Char
  info : DeviceIdentity
  parsed : Option MeterReading
  si : ServiceInfo
  timestamp : ℚ

/-- Feed one observation to the tracker. -/
def applyObs (st : List (List Char × DeviceRecord)) (o : Observation) :
    List (List Char × DeviceRecord) :=
  update_history st o.mac o.info o.parsed o.si o.timestamp

/-- Feed a whole sequence of observations, in order. -/
def applyAll (st : List (List Char × DeviceRecord)) (l : List Observation) :
    List (List Char × DeviceRecord) :=
  l.foldl applyObs st

/-! ### Tracker lemmas: lookup, insertion and update -/

theorem lookupDev_cons (k : List Char) (v : DeviceRecord)
    (st : List (List Char × DeviceRecord)) (mac : List Char) :
    lookupDev ((k, v) :: st) mac = if k = mac then some v else lookupDev st mac := by
  by_cases h : k = mac
  · simp [lookupDev, List.find?_cons_of_pos, h]
  · simp [lookupDev, List.find?_cons_of_neg, h]

theorem lookupDev_append_singleton_self {st : List (List Char × DeviceRecord)}
    {mac : List Char} (r : DeviceRecord) (h : lookupDev st mac = none) :
    lookupDev (st ++ [(mac, r)]) mac = some r := by
  induction st with
  | nil => simp [lookupDev_cons]
  | cons p rest ih =>
    obtain ⟨k, v⟩ := p
    rw [lookupDev_cons] at h
    rw [List.cons_append, lookupDev_cons]
    split at h
    · exact absurd h (by simp)
    · rename_i hk
      rw [if_neg hk]
      exact ih h

theorem lookupDev_append_singleton_other {st : List (List Char × DeviceRecord)}
    {mac mac' : List Char} (r : DeviceRecord) (h : mac' ≠ mac) :
    lookupDev (st ++ [(mac, r)]) mac' = lookupDev st mac' := by
  induction st with
  | nil => simp [lookupDev, lookupDev_cons, Ne.symm h]
  | cons p rest ih =>
    obtain ⟨k, v⟩ := p
    rw [List.cons_append, lookupDev_cons, lookupDev_cons, ih]

theorem lookupDev_setDev_self (st : List (List Char × DeviceRecord)) (mac : List Char)
    (r : DeviceRecord) : lookupDev (setDev st mac r) mac = some r := by
  induction st with
  | nil => simp [setDev, lookupDev_cons]
  | cons p rest ih =>
    obtain ⟨k, v⟩ := p
    by_cases h : k = mac
    · subst h
      simp [setDev, lookupDev_cons]
    · rw [show setDev ((k, v) :: rest) mac r = (k, v) :: setDev rest mac r from by
        simp [setDev, h], lookupDev_cons, if_neg h]
      exact ih

theorem lookupDev_setDev_other (st : List (List Char × DeviceRecord))
    {mac mac' : List Char} (r : DeviceRecord) (h : mac' ≠ mac) :
    lookupDev (setDev st mac r) mac' = lookupDev st mac' := by
  induction st with
  | nil => simp [setDev, lookupDev_cons, Ne.symm h, lookupDev]
  | cons p rest ih =>
    obtain ⟨k, v⟩ := p
    by_cases hk : k = mac
    · subst hk
      rw [show setDev ((k, v) :: rest) k r = (k, r) :: rest from by simp [setDev],
        lookupDev_cons, lookupDev_cons]
      simp only [if_neg (Ne.symm h)]
    · rw [show setDev ((k, v) :: rest) mac r = (k, v) :: setDev rest mac r from by
        simp [setDev, hk], lookupDev_cons, lookupDev_cons, ih]

theorem keys_setDev {st : List (List Char × DeviceRecord)} {mac : List Char}
    (r : DeviceRecord) (h : lookupDev st mac ≠ none) :
    (setDev st mac r).map Prod.fst = st.map Prod.fst := by
  induction st with
  | nil => exact absurd rfl h
  | cons p rest ih =>
    obtain ⟨k, v⟩ := p
    by_cases hk : k = mac
    · subst hk
      simp [setDev]
    · rw [lookupDev_cons, if_neg hk] at h
      rw [show setDev ((k, v) :: rest) mac r = (k, v) :: setDev rest mac r from by
        simp [setDev, hk]]
      simp [ih h]

theorem lookupDev_eq_none_iff {st : List (List Char × DeviceRecord)} {mac : List Char} :
    lookupDev st mac = none ↔ mac ∉ st.map Prod.fst := by
  induction st with
  | nil => simp [lookupDev]
  | cons p rest ih =>
    obtain ⟨k, v⟩ := p
    rw [lookupDev_cons]
    by_cases h : k = mac
    · subst h
      constructor
      · intro h0
        rw [if_pos rfl] at h0
        exact absurd h0 (by simp)
      · intro h0
        exact absurd (List.mem_cons_self k (rest.map Prod.fst)) h0
    · simp only [if_neg h, ih, List.map_cons, List.mem_cons]
      constructor
      · rintro hn (rfl | hm)
        · exact h rfl
        · exact hn hm
      · intro hn hm
        exact hn (Or.inr hm)

/-! ### Characterizing one `_update_history` call -/

theorem update_history_eq (st : List (List Char × DeviceRecord)) (mac : List Char)
    (info : DeviceIdentity) (parsed : Option MeterReading) (si : ServiceInfo) (ts : ℚ) :
    update_history st mac info parsed si ts =
      match lookupDev st mac with
      | none => setDev (st ++ [(mac, newRecord info mac si ts)]) mac
          (applyParsed (bumpRecord (newRecord info mac si ts) si ts) parsed)
      | some r => setDev st mac (applyParsed (bumpRecord r si ts) parsed) := by
  unfold update_history updateExisting
  cases hl : lookupDev st mac with
  | none =>
    rw [if_pos rfl, lookupDev_append_singleton_self _ hl]
  | some r =>
    rw [if_neg (by simp), hl]

theorem update_history_lookup_other {st : List (List Char × DeviceRecord)}
    {mac mac' : List Char} (info : DeviceIdentity) (parsed : Option MeterReading)
    (si : ServiceInfo) (ts : ℚ) (h : mac' ≠ mac) :
    lookupDev (update_history st mac info parsed si ts) mac' = lookupDev st mac' := by
  rw [update_history_eq]
  split
  · rw [lookupDev_setDev_other _ _ h, lookupDev_append_singleton_other _ h]
  · rw [lookupDev_setDev_other _ _ h]

theorem update_history_lookup_self_none {st : List (List Char × DeviceRecord)}
    {mac : List Char} (info : DeviceIdentity) (parsed : Option MeterReading)
    (si : ServiceInfo) (ts : ℚ) (hl : lookupDev st mac = none) :
    lookupDev (update_history st mac info parsed si ts) mac =
      some (applyParsed (bumpRecord (newRecord info mac si ts) si ts) parsed) := by
  rw [update_history_eq]
  split
  · exact lookupDev_setDev_self _ _ _
  · rename_i r heq
    rw [hl] at heq
    cases heq

theorem update_history_lookup_self_some {st : List (List Char × DeviceRecord)}
    {mac : List Char} {r : DeviceRecord} (info : DeviceIdentity)
    (parsed : Option MeterReading) (si : ServiceInfo) (ts : ℚ)
    (hl : lookupDev st mac = some r) :
    lookupDev (update_history st mac info parsed si ts) mac =
      some (applyParsed (bumpRecord r si ts) parsed) := by
  rw [update_history_eq]
  split
  · rename_i heq
    rw [hl] at heq
    cases heq
  · rename_i r' heq
    rw [hl] at heq
    cases heq
    exact lookupDev_setDev_self _ _ _

theorem keys_update_history (st : List (List Char × DeviceRecord)) (mac : List Char)
    (info : DeviceIdentity) (parsed : Option MeterReading) (si : ServiceInfo) (ts : ℚ) :
    (update_history st mac info parsed si ts).map Prod.fst =
      if lookupDev st mac = none then st.map Prod.fst ++ [mac] else st.map Prod.fst := by
  rw [update_history_eq]
  split
  · rename_i heq
    rw [keys_setDev _ (by rw [lookupDev_append_singleton_self _ heq]; simp),
      if_pos heq]
    simp
  · rename_i r heq
    rw [keys_setDev _ (by rw [heq]; simp), if_neg (by simp [heq])]

/-- The `best_rssi` raise never lowers the value, and `last_seen` becomes the
supplied timestamp, whatever the parse outcome. -/
theorem applyObs_lookup_step {st : List (List Char × DeviceRecord)} {o : Observation}
    {mac : List Char} {r : DeviceRecord} (h : lookupDev st mac = some r) :
    ∃ r', lookupDev (applyObs st o) mac = some r'
      ∧ r.best_rssi ≤ r'.best_rssi
      ∧ (r.last_seen ≤ o.timestamp → r.last_seen ≤ r'.last_seen) := by
  by_cases hm : mac = o.mac
  · subst hm
    refine ⟨_, update_history_lookup_self_some o.info o.parsed o.si o.timestamp h, ?_, ?_⟩
    · cases o.parsed <;> simp only [applyParsed, bumpRecord] <;> split_ifs <;> omega
    · intro hle
      cases o.parsed <;> simp only [applyParsed, bumpRecord] <;> exact hle
  · refine ⟨r, ?_, le_refl _, fun _ => le_refl _⟩
    simp only [applyObs]
    rw [update_history_lookup_other _ _ _ _ hm]
    exact h

/-- A sample MAC used in concrete tracker scenarios. -/
def demoMac : List Char :=
  ['B', '0', ':', '0', '1', ':', '0', '2', ':', 'A', 'A', ':', 'B', 'B', ':', 'C', 'C']

/-- A second, distinct MAC. -/
def demoMac2 : List Char :=
  ['B', '0', ':', '0', '1', ':', '0', '2', ':', 'A', 'A', ':', 'B', 'B', ':', 'C', 'D']

/-- The identity `extract_info_from_mac` derives for `demoMac`. -/
def demoIdent : DeviceIdentity :=
  { serial := 11189196, model := 1, type_byte := 2, device_type := .gas, mac := demoMac }

/-- C6: `record_observation` creates a record when the MAC is unseen (one
packet, `best_rssi` = the observed signal, both timestamps = the call's); on a
later call for the same MAC it sets `last_seen` to the new timestamp,
increments the packet count and raises `best_rssi` to the maximum; two calls
with signals -80 then -60 leave `best_rssi = -60` and a packet count of 2. -/
theorem record_observation_create_and_update :
    (∀ (st : List (List Char × DeviceRecord)) mac info parsed si (ts : ℚ),
      lookupDev st mac = none →
      ∃ r', lookupDev (update_history st mac info parsed si ts) mac = some r'
        ∧ r'.first_seen = ts ∧ r'.last_seen = ts ∧ r'.packets = 1
        ∧ r'.best_rssi = si.rssi)
    ∧ (∀ (st : List (List Char × DeviceRecord)) mac info parsed si (ts : ℚ) r,
      lookupDev st mac = some r →
      ∃ r', lookupDev (update_history st mac info parsed si ts) mac = some r'
        ∧ r'.last_seen = ts ∧ r'.packets = r.packets + 1
        ∧ r'.best_rssi = max r.best_rssi si.rssi)
    ∧ (∃ r, lookupDev (update_history
          (update_history [] demoMac demoIdent none ⟨-80⟩ 100)
          demoMac demoIdent none ⟨-60⟩ 200) demoMac = some r
        ∧ r.best_rssi = -60 ∧ r.packets = 2) := by
  refine ⟨?_, ?_, ?_⟩
  · intro st mac info parsed si ts h
    refine ⟨_, update_history_lookup_self_none info parsed si ts h, ?_, ?_, ?_, ?_⟩ <;>
      cases parsed <;> simp [applyParsed, bumpRecord, newRecord]
  · intro st mac info parsed si ts r h
    refine ⟨_, update_history_lookup_self_some info parsed si ts h, ?_, ?_, ?_⟩ <;>
      cases parsed <;> simp only [applyParsed, bumpRecord]
    · split_ifs <;> omega
    · split_ifs <;> omega
  · exact ⟨_, rfl, rfl, rfl⟩

/-- Witness for C6 at a concrete first observation. -/
theorem record_observation_create_and_update_witness :
    ∃ r', lookupDev (update_history [] demoMac demoIdent none ⟨-80⟩ 100) demoMac = some r'
      ∧ r'.first_seen = 100 ∧ r'.last_seen = 100 ∧ r'.packets = 1
      ∧ r'.best_rssi = (⟨-80⟩ : ServiceInfo).rssi :=
  record_observation_create_and_update.1 [] demoMac demoIdent none ⟨-80⟩ 100 rfl

/-- C8: an observation whose decode failed (`parsed = None`) still creates or
updates the history record — `last_seen`, the packet count and `best_rssi`
move exactly as for a decoded packet — while the `last_value`,
`last_temperature` and `last_raw` fields stay exactly as they were: absent on
a first observation, unchanged thereafter. -/
theorem record_observation_none_reading :
    (∀ (st : List (List Char × DeviceRecord)) mac info si (ts : ℚ),
      lookupDev st mac = none →
      ∃ r', lookupDev (update_history st mac info none si ts) mac = some r'
        ∧ r'.last_value = none ∧ r'.last_temperature = none ∧ r'.last_raw = none
        ∧ r'.last_seen = ts ∧ r'.packets = 1 ∧ r'.best_rssi = si.rssi)
    ∧ (∀ (st : List (List Char × DeviceRecord)) mac info si (ts : ℚ) r,
      lookupDev st mac = some r →
      ∃ r', lookupDev (update_history st mac info none si ts) mac = some r'
        ∧ r'.last_value = r.last_value ∧ r'.last_temperature = r.last_temperature
        ∧ r'.last_raw = r.last_raw
        ∧ r'.last_seen = ts ∧ r'.packets = r.packets + 1
        ∧ r'.best_rssi = max r.best_rssi si.rssi) := by
  constructor
  · intro st mac info si ts h
    refine ⟨_, update_history_lookup_self_none info none si ts h, ?_, ?_, ?_, ?_, ?_, ?_⟩ <;>
      simp [applyParsed, bumpRecord, newRecord]
  · intro st mac info si ts r h
    refine ⟨_, update_history_lookup_self_some info none si ts h, ?_, ?_, ?_, ?_, ?_, ?_⟩ <;>
      simp only [applyParsed, bumpRecord]
    split_ifs <;> omega

/-- Witness for C8: a failed decode recorded on top of an existing record
keeps the reading fields and still bumps the rest. -/
theorem record_observation_none_reading_witness :
    (∃ r', lookupDev (update_history [] demoMac demoIdent none ⟨-80⟩ 100) demoMac = some r'
      ∧ r'.last_value = none ∧ r'.last_temperature = none ∧ r'.last_raw = none
      ∧ r'.last_seen = 100 ∧ r'.packets = 1 ∧ r'.best_rssi = (⟨-80⟩ : ServiceInfo).rssi)
    ∧ (∃ r', lookupDev (update_history [(demoMac, newRecord demoIdent demoMac ⟨-80⟩ 50)]
        demoMac demoIdent none ⟨-60⟩ 100) demoMac = some r'
      ∧ r'.last_value = (newRecord demoIdent demoMac ⟨-80⟩ 50).last_value
      ∧ r'.last_temperature = (newRecord demoIdent demoMac ⟨-80⟩ 50).last_temperature
      ∧ r'.last_raw = (newRecord demoIdent demoMac ⟨-80⟩ 50).last_raw
      ∧ r'.last_seen = 100
      ∧ r'.packets = (newRecord demoIdent demoMac ⟨-80⟩ 50).packets + 1
      ∧ r'.best_rssi = max (newRecord demoIdent demoMac ⟨-80⟩ 50).best_rssi
          (⟨-60⟩ : ServiceInfo).rssi) :=
  ⟨record_observation_none_reading.1 [] demoMac demoIdent ⟨-80⟩ 100 rfl,
   record_observation_none_reading.2 [(demoMac, newRecord demoIdent demoMac ⟨-80⟩ 50)]
     demoMac demoIdent ⟨-60⟩ 100 _ rfl⟩

/-- C5 counterexample: `last_seen` is assigned the supplied timestamp
unconditionally, so a second call carrying a smaller timestamp makes
`last_seen` decrease — with arbitrary timestamps it is not monotone. -/
theorem record_observation_last_seen_counterexample :
    ∃ r1 r2 : DeviceRecord,
      lookupDev (update_history [] demoMac demoIdent none ⟨-50⟩ 100) demoMac = some r1
      ∧ lookupDev (update_history (update_history [] demoMac demoIdent none ⟨-50⟩ 100)
          demoMac demoIdent none ⟨-50⟩ 50) demoMac = some r2
      ∧ r2.last_seen < r1.last_seen :=
  ⟨_, _, rfl, rfl, by simp only [applyParsed, bumpRecord]; norm_num⟩

/-- C5 amended: across any sequence of `record_observation` calls the tracker
holds at most one record per MAC (the key list stays duplicate-free), and
each record's `best_signal_strength` is monotonically non-decreasing; its
`last_seen` is monotonically non-decreasing provided each call's timestamp is
at least the record's current `last_seen` (e.g. when callers pass
non-decreasing clock readings, as the production caller's `time.time()`
does). -/
theorem record_observation_invariants :
    (∀ (st : List (List Char × DeviceRecord)) (l : List Observation),
      (st.map Prod.fst).Nodup → ((applyAll st l).map Prod.fst).Nodup)
    ∧ (∀ (st : List (List Char × DeviceRecord)) (l : List Observation) mac r r',
      lookupDev st mac = some r → lookupDev (applyAll st l) mac = some r' →
      r.best_rssi ≤ r'.best_rssi)
    ∧ (∀ (st : List (List Char × DeviceRecord)) (o : Observation) mac r r',
      lookupDev st mac = some r → lookupDev (applyObs st o) mac = some r' →
      r.last_seen ≤ o.timestamp → r.last_seen ≤ r'.last_seen) := by
  refine ⟨?_, ?_, ?_⟩
  · intro st l
    induction l generalizing st with
    | nil => exact id
    | cons o rest ih =>
      intro hnd
      apply ih
      show ((update_history st o.mac o.info o.parsed o.si o.timestamp).map Prod.fst).Nodup
      rw [keys_update_history]
      split
      · rename_i heq
        have hnotin : o.mac ∉ st.map Prod.fst := lookupDev_eq_none_iff.mp heq
        simp [List.nodup_append, hnd, hnotin]
      · exact hnd
  · intro st l
    induction l generalizing st with
    | nil =>
      intro mac r r' h h'
      cases h.symm.trans h'
      exact le_refl _
    | cons o rest ih =>
      intro mac r r' h h'
      obtain ⟨r'', h2, hb, -⟩ := applyObs_lookup_step (o := o) h
      exact le_trans hb (ih _ _ _ _ h2 h')
  · intro st o mac r r' h h' hle
    obtain ⟨r'', h2, -, hl⟩ := applyObs_lookup_step (o := o) h
    cases h2.symm.trans h'
    exact hl hle

/-- Witness for C5's amended invariants on a concrete two-observation run. -/
theorem record_observation_invariants_witness :
    ((applyAll [] [⟨demoMac, demoIdent, none, ⟨-80⟩, 100⟩,
        ⟨demoMac2, demoIdent, none, ⟨-70⟩, 150⟩]).map Prod.fst).Nodup
    ∧ (∃ r r', lookupDev [(demoMac, newRecord demoIdent demoMac ⟨-80⟩ 50)] demoMac = some r
        ∧ lookupDev (applyAll [(demoMac, newRecord demoIdent demoMac ⟨-80⟩ 50)]
            [⟨demoMac, demoIdent, none, ⟨-60⟩, 100⟩]) demoMac = some r'
        ∧ r.best_rssi ≤ r'.best_rssi)
    ∧ (∃ r r', lookupDev [(demoMac, newRecord demoIdent demoMac ⟨-80⟩ 50)] demoMac = some r
        ∧ lookupDev (applyObs [(demoMac, newRecord demoIdent demoMac ⟨-80⟩ 50)]
            ⟨demoMac, demoIdent, none, ⟨-60⟩, 100⟩) demoMac = some r'
        ∧ r.last_seen ≤ r'.last_seen) := by
  refine ⟨record_observation_invariants.1 [] _ (by simp), ?_, ?_⟩
  · refine ⟨_, _, rfl, rfl, ?_⟩
    exact record_observation_invariants.2.1
      [(demoMac, newRecord demoIdent demoMac ⟨-80⟩ 50)]
      [⟨demoMac, demoIdent, none, ⟨-60⟩, 100⟩] demoMac _ _ rfl rfl
  · refine ⟨_, _, rfl, rfl, ?_⟩
    exact record_observation_invariants.2.2
      [(demoMac, newRecord demoIdent demoMac ⟨-80⟩ 50)]
      ⟨demoMac, demoIdent, none, ⟨-60⟩, 100⟩ demoMac _ _ rfl rfl
      (by norm_num [newRecord])

/-- C7: `get_recent_devices` returns exactly the records whose `last_seen`
is within the window `now - hours*3600`; with `now = 10000` and a one-hour
window, a record last seen 2 hours earlier (7200 s) is excluded and one seen
30 minutes earlier (1800 s) is included. -/
theorem get_recent_devices_spec :
    (∀ (st : List (List Char × DeviceRecord)) (now : ℚ) (hours : Int) r,
      r ∈ get_recent_devices st now hours ↔
        ∃ mac, (mac, r) ∈ st ∧ now - hours * 3600 ≤ r.last_seen)
    ∧ get_recent_devices
        [(demoMac, newRecord demoIdent demoMac ⟨-60⟩ (10000 - 7200)),
         (demoMac2, newRecord demoIdent demoMac2 ⟨-60⟩ (10000 - 1800))] 10000 1 =
      [newRecord demoIdent demoMac2 ⟨-60⟩ (10000 - 1800)] := by
  constructor
  · intro st now hours r
    constructor
    · intro h
      simp only [get_recent_devices, List.mem_map, List.mem_filter,
        decide_eq_true_eq] at h
      obtain ⟨⟨k, v⟩, ⟨hmem, hcond⟩, rfl⟩ := h
      exact ⟨k, hmem, hcond⟩
    · rintro ⟨mac, hmem, hcond⟩
      simp only [get_recent_devices, List.mem_map, List.mem_filter, decide_eq_true_eq]
      exact ⟨(mac, r), ⟨hmem, hcond⟩, rfl⟩
  · norm_num [get_recent_devices, newRecord, List.filter]

/-- Witness for C7's membership characterization at a concrete state. -/
theorem get_recent_devices_spec_witness :
    newRecord demoIdent demoMac2 ⟨-60⟩ 8200 ∈ get_recent_devices
      [(demoMac, newRecord demoIdent demoMac ⟨-60⟩ 2800),
       (demoMac2, newRecord demoIdent demoMac2 ⟨-60⟩ 8200)] 10000 1 :=
  (get_recent_devices_spec.1 _ 10000 1 _).mpr
    ⟨demoMac2, by simp, by norm_num [newRecord]⟩

end Elehant
